import Mathlib

set_option maxRecDepth 20000

/-!
Verification development for the `video_download_api` service (`src/main.py`).

The service caches at most one downloaded media file per media kind
(video / audio) on local disk, keyed by an MD5-based cache filename, and
evicts an idle resident via periodic background sweeps.

Shallow embedding conventions:
* Python strings are modelled as `List Char` (`Str`); the URL argument is
  modelled by its UTF-8 byte sequence (`List Nat`, entries below 256),
  matching `url.encode()` in the source.
* The filesystem is modelled as the list of existing paths; `os.remove`
  deletes a path, `os.path.exists` is membership.
* `time.time()` values are modelled as integers (only differences and
  comparisons of timestamps occur in the source).
* The outcomes of the external collaborators (`yt_dlp` download, ffmpeg
  binary fetch) are inputs of each request's environment.
-/

/-- Python strings are modelled as lists of characters. -/
abbrev Str := List Char

/-- `CONFIG_DIR = os.getenv('CONFIG', '/config')`, modelled with the default. -/
def CONFIG_DIR : Str := "/config".toList

/-- `CACHE_DIR = "/tmp/video_cache"` (main.py line 24). -/
def CACHE_DIR : Str := "/tmp/video_cache".toList

/-- `AUDIO_CACHE_DIR = "/tmp/audio_cache"` (main.py line 25). -/
def AUDIO_CACHE_DIR : Str := "/tmp/audio_cache".toList

/-- `CACHE_EXPIRY_TIME = 15 * 60` seconds (main.py line 26). -/
def CACHE_EXPIRY_TIME : Int := 15 * 60

/-- `os.path.join dir p`: if `p` is absolute it wins, otherwise the parts are
joined with a separator (the directories used by the source never end in a
separator, so no case for a trailing slash is needed). -/
def joinPath (dir p : Str) : Str :=
  if p.head? = some '/' then p else dir ++ '/' :: p

/-- `os.path.basename p`: the suffix of `p` after the last slash. -/
def basename (p : Str) : Str :=
  (p.reverse.takeWhile (fun c => decide (c ≠ '/'))).reverse

/-- Python truthiness of an optional string: `None` and `""` are falsy. -/
def truthy : Option Str → Bool
  | none => false
  | some s => !s.isEmpty

/-- `os.remove p` on the set-of-paths filesystem model. -/
def removeFile (fs : List Str) (p : Str) : List Str :=
  fs.filter (fun q => decide (q ≠ p))

/-! ### MD5 (RFC 1321), as used by `hashlib.md5(url.encode()).hexdigest()`

All words are natural numbers kept below `2^32` by explicit reduction. -/

/-- `2^32`, the word modulus of MD5. -/
def M32 : Nat := 4294967296

/-- 32-bit left rotation (arguments assumed below `2^32`). -/
def rotl (x s : Nat) : Nat := ((x <<< s) + (x >>> (32 - s))) % M32

/-- Bitwise complement on 32-bit words. -/
def mnot (x : Nat) : Nat := Nat.xor x 4294967295

/-- MD5 round function F. -/
def fF (b c d : Nat) : Nat := Nat.lor (Nat.land b c) (Nat.land (mnot b) d)

/-- MD5 round function G. -/
def fG (b c d : Nat) : Nat := Nat.lor (Nat.land d b) (Nat.land (mnot d) c)

/-- MD5 round function H. -/
def fH (b c d : Nat) : Nat := Nat.xor b (Nat.xor c d)

/-- MD5 round function I. -/
def fI (b c d : Nat) : Nat := Nat.xor c (Nat.lor b (mnot d))

/-- The 64 MD5 sine-table constants `T[i] = ⌊2^32·|sin(i+1)|⌋`. -/
def Ktab : List Nat :=
  [0xd76aa478, 0xe8c7b756, 0x242070db, 0xc1bdceee,
   0xf57c0faf, 0x4787c62a, 0xa8304613, 0xfd469501,
   0x698098d8, 0x8b44f7af, 0xffff5bb1, 0x895cd7be,
   0x6b901122, 0xfd987193, 0xa679438e, 0x49b40821,
   0xf61e2562, 0xc040b340, 0x265e5a51, 0xe9b6c7aa,
   0xd62f105d, 0x02441453, 0xd8a1e681, 0xe7d3fbc8,
   0x21e1cde6, 0xc33707d6, 0xf4d50d87, 0x455a14ed,
   0xa9e3e905, 0xfcefa3f8, 0x676f02d9, 0x8d2a4c8a,
   0xfffa3942, 0x8771f681, 0x6d9d6122, 0xfde5380c,
   0xa4beea44, 0x4bdecfa9, 0xf6bb4b60, 0xbebfbc70,
   0x289b7ec6, 0xeaa127fa, 0xd4ef3085, 0x04881d05,
   0xd9d4d039, 0xe6db99e5, 0x1fa27cf8, 0xc4ac5665,
   0xf4292244, 0x432aff97, 0xab9423a7, 0xfc93a039,
   0x655b59c3, 0x8f0ccc92, 0xffeff47d, 0x85845dd1,
   0x6fa87e4f, 0xfe2ce6e0, 0xa3014314, 0x4e0811a1,
   0xf7537e82, 0xbd3af235, 0x2ad7d2bb, 0xeb86d391]

/-- The 64 per-step left-rotation amounts. -/
def stab : List Nat :=
  [7, 12, 17, 22, 7, 12, 17, 22, 7, 12, 17, 22, 7, 12, 17, 22,
   5, 9, 14, 20, 5, 9, 14, 20, 5, 9, 14, 20, 5, 9, 14, 20,
   4, 11, 16, 23, 4, 11, 16, 23, 4, 11, 16, 23, 4, 11, 16, 23,
   6, 10, 15, 21, 6, 10, 15, 21, 6, 10, 15, 21, 6, 10, 15, 21]

/-- Message-word index used at step `i`. -/
def gIdx (i : Nat) : Nat :=
  if i < 16 then i
  else if i < 32 then (5 * i + 1) % 16
  else if i < 48 then (3 * i + 5) % 16
  else (7 * i) % 16

/-- Assemble a little-endian 32-bit word from four bytes. -/
def leWord (b0 b1 b2 b3 : Nat) : Nat :=
  b0 % 256 + 256 * (b1 % 256) + 65536 * (b2 % 256) + 16777216 * (b3 % 256)

/-- The sixteen 32-bit little-endian words of a 64-byte block. -/
def blockWords : List Nat → List Nat
  | b0 :: b1 :: b2 :: b3 :: rest => leWord b0 b1 b2 b3 :: blockWords rest
  | _ => []

/-- One MD5 step on the state `(a, b, c, d)` with block words `X`. -/
def md5Step (X : List Nat) (st : Nat × Nat × Nat × Nat) (i : Nat) :
    Nat × Nat × Nat × Nat :=
  let (a, b, c, d) := st
  let f := if i < 16 then fF b c d
           else if i < 32 then fG b c d
           else if i < 48 then fH b c d
           else fI b c d
  let t := rotl ((a + f + Ktab.getD i 0 + X.getD (gIdx i) 0) % M32) (stab.getD i 0)
  (d, (b + t) % M32, b, c)

/-- Process one 64-byte block. -/
def md5Block (st : Nat × Nat × Nat × Nat) (block : List Nat) :
    Nat × Nat × Nat × Nat :=
  let X := blockWords block
  let (a', b', c', d') := (List.range 64).foldl (md5Step X) st
  let (a, b, c, d) := st
  ((a + a') % M32, (b + b') % M32, (c + c') % M32, (d + d') % M32)

/-- Split a list into 64-byte chunks; the first argument is recursion fuel
(any value at least the number of chunks, e.g. the list length, works). -/
def splitBlocks : Nat → List Nat → List (List Nat)
  | 0, _ => []
  | _ + 1, [] => []
  | fuel + 1, l => l.take 64 :: splitBlocks fuel (l.drop 64)

/-- The eight little-endian bytes of the 64-bit bit-length field. -/
def lenBytes (n : Nat) : List Nat :=
  [n % 256, n / 256 % 256, n / 65536 % 256, n / 16777216 % 256,
   n / 4294967296 % 256, n / 1099511627776 % 256,
   n / 281474976710656 % 256, n / 72057594037927936 % 256]

/-- MD5 padding: append `0x80`, zeros to 56 mod 64, then the bit length. -/
def padMsg (msg : List Nat) : List Nat :=
  let z := (119 - msg.length % 64) % 64
  msg ++ 0x80 :: List.replicate z 0 ++ lenBytes ((msg.length * 8) % 18446744073709551616)

/-- The four final MD5 state words of a byte-string message. -/
def md5Words (msg : List Nat) : Nat × Nat × Nat × Nat :=
  let p := padMsg msg
  (splitBlocks p.length p).foldl md5Block
    (0x67452301, 0xefcdab89, 0x98badcfe, 0x10325476)

/-- The four little-endian bytes of a 32-bit word. -/
def wordBytes (w : Nat) : List Nat :=
  [w % 256, w / 256 % 256, w / 65536 % 256, w / 16777216 % 256]

/-- The 16-byte MD5 digest of a byte-string message. -/
def md5Bytes (msg : List Nat) : List Nat :=
  let (a, b, c, d) := md5Words msg
  wordBytes a ++ wordBytes b ++ wordBytes c ++ wordBytes d

/-- The sixteen lowercase hexadecimal digit characters. -/
def hexDigits : Str := "0123456789abcdef".toList

/-- The lowercase hex character of a nibble. -/
def hexChar (n : Nat) : Char := hexDigits.getD n '0'

/-- Two lowercase hex characters per byte, high nibble first
(`hexdigest()` formatting). -/
def bytesToHex : List Nat → Str
  | [] => []
  | b :: bs => hexChar (b % 256 / 16) :: hexChar (b % 16) :: bytesToHex bs

/-- `hashlib.md5(msg).hexdigest()`: the 32-character lowercase hex digest. -/
def md5Hex (msg : List Nat) : Str := bytesToHex (md5Bytes msg)

/-! ### Cache keys (main.py lines 86-88 and 113-115) -/

/-- `get_cache_filename(url) = hashlib.md5(url.encode()).hexdigest() + ".mp4"`.
The argument is the UTF-8 byte string of the URL. -/
def get_cache_filename (url : List Nat) : Str := md5Hex url ++ ".mp4".toList

/-- `get_audio_cache_filename(url) = hashlib.md5(url.encode()).hexdigest() + ".mp3"`. -/
def get_audio_cache_filename (url : List Nat) : Str := md5Hex url ++ ".mp3".toList

/-- The two media kinds served by the API. -/
inductive MediaKind where
  | video
  | audio
deriving DecidableEq

/-- The fingerprint (cache key) of a request identity: the kind-specific
cache filename computed by the source. -/
def fingerprint (url : List Nat) : MediaKind → Str
  | .video => get_cache_filename url
  | .audio => get_audio_cache_filename url

/-! ### Process state and request environment

The mutable globals of main.py (lines 34-37) plus the filesystem. -/

/-- Process state: the filesystem (set of existing paths) and the three
module-level globals `cached_video_path`, `cached_audio_path` and the single
shared `last_access_time`. -/
structure St where
  fs : List Str
  cached_video_path : Option Str
  cached_audio_path : Option Str
  last_access_time : Int
deriving DecidableEq

/-- Outcome of `ydl.download([url])` chosen by the environment:
either it raises, possibly leaving a partial file at the destination,
or it returns normally, having written the expected file or not. -/
inductive DlOutcome where
  | raisesErr (partialLeft : Bool) (msg : Str)
  | completes (fileWritten : Bool)
deriving DecidableEq

/-- Outcome of the ffmpeg fetch-and-extract when the binary is not yet
cached: success, or an error (unsupported platform / binary not found). -/
inductive FfmpegOutcome where
  | ok
  | err (msg : Str)
deriving DecidableEq

/-- Per-request environment: the wall-clock time of the request and the
outcomes of the external collaborators. -/
structure Env where
  now : Int
  ffmpeg : FfmpegOutcome
  dl : DlOutcome
deriving DecidableEq

/-- A Python exception value reaching the handler's `except` block. -/
inductive Exn where
  | httpExc (status : Nat) (detail : Str)
  | pyErr (msg : Str)
deriving DecidableEq

/-- `str(e)`: Starlette's `HTTPException.__str__` is
`f"{status_code}: {detail}"`; other exceptions keep their message. -/
def exnMsg : Exn → Str
  | .httpExc s d => (toString s).toList ++ ": ".toList ++ d
  | .pyErr m => m

/-- Response produced by a handler: a `FileResponse` or the payload of a
raised `HTTPException`. -/
inductive Resp where
  | fileResponse (path : Str) (media_type : Str) (filename : Str)
  | httpError (status : Nat) (detail : Str)
deriving DecidableEq

/-- Result of one handler invocation: the response, the new process state,
and whether `ydl.download` was invoked during the request. -/
structure HandlerOut where
  resp : Resp
  st : St
  acquired : Bool
deriving DecidableEq

/-! ### ffmpeg installation (main.py lines 53-84) -/

/-- `os.path.join(CONFIG_DIR, "ffmpeg")`. -/
def ffmpeg_path : Str := joinPath CONFIG_DIR ("ffmpeg".toList)

/-- `os.path.join(CONFIG_DIR, "yt-dlp.json")`. -/
def ytdlp_config_path : Str := joinPath CONFIG_DIR ("yt-dlp.json".toList)

/-- `download_and_extract_ffmpeg`: if the binary already exists at the fixed
config location it is returned as is; otherwise the archive is fetched and
extracted (its temporary files are removed again, so the net filesystem
effect is the new binary) or the step fails.  The `Bool` records whether a
network download happened. -/
def download_and_extract_ffmpeg (fs : List Str) (o : FfmpegOutcome) :
    Except Str (Str × List Str × Bool) :=
  if ffmpeg_path ∈ fs then .ok (ffmpeg_path, fs, false)
  else
    match o with
    | .ok => .ok (ffmpeg_path, ffmpeg_path :: fs, true)
    | .err m => .error m

/-- Filesystem effect of `get_ytdlp_config` (main.py lines 100-111): the
default config file is written if absent; the returned options do not
affect the modelled behaviour. -/
def get_ytdlp_config (fs : List Str) : List Str :=
  if ytdlp_config_path ∈ fs then fs else ytdlp_config_path :: fs

/-! ### Request handlers (main.py lines 132-227) -/

/-- The hit test of main.py lines 141/187:
`if cached_path and os.path.basename(cached_path) == cache_filename`,
returning the resident path on a hit and `none` on a miss. -/
def cache_lookup (cached : Option Str) (filename : Str) : Option Str :=
  if truthy cached = true ∧ basename (cached.getD []) = filename then cached
  else none

/-- The `except Exception` block of the handlers (main.py lines 172-176 and
223-227): any partial file at the destination is removed and the caught
exception is re-raised as `HTTPException(500, str(e))`. -/
def handler_except (dest : Str) (st : St) (e : Exn) (acq : Bool) : HandlerOut :=
  { resp := .httpError 500 (exnMsg e),
    st := { st with fs := if dest ∈ st.fs then removeFile st.fs dest else st.fs },
    acquired := acq }

/-- The `POST /download/` handler (main.py lines 132-176). -/
def download_video (url : List Nat) (st : St) (env : Env) : HandlerOut :=
  let cache_filename := get_cache_filename url
  let new_cache_filepath := joinPath CACHE_DIR cache_filename
  match cache_lookup st.cached_video_path cache_filename with
  | some p =>
      { resp := .fileResponse p ("video/mp4".toList) cache_filename,
        st := { st with last_access_time := env.now },
        acquired := false }
  | none =>
      match download_and_extract_ffmpeg st.fs env.ffmpeg with
      | .error m => handler_except new_cache_filepath st (.pyErr m) false
      | .ok (_, fs1, _) =>
          let fs2 := get_ytdlp_config fs1
          match env.dl with
          | .raisesErr partialLeft m =>
              handler_except new_cache_filepath
                { st with fs := if partialLeft then new_cache_filepath :: fs2 else fs2 }
                (.pyErr m) true
          | .completes fileWritten =>
              let fs3 := if fileWritten then new_cache_filepath :: fs2 else fs2
              if new_cache_filepath ∈ fs3 then
                { resp := .fileResponse new_cache_filepath ("video/mp4".toList) cache_filename,
                  st := { fs := if truthy st.cached_video_path = true ∧
                                   (st.cached_video_path.getD []) ∈ fs3
                                then removeFile fs3 (st.cached_video_path.getD [])
                                else fs3,
                          cached_video_path := some new_cache_filepath,
                          cached_audio_path := st.cached_audio_path,
                          last_access_time := env.now },
                  acquired := true }
              else
                handler_except new_cache_filepath { st with fs := fs3 }
                  (.httpExc 404 ("Video download failed".toList)) true

/-- The `POST /download-audio/` handler (main.py lines 178-227); the
truncated `outtmpl` of line 201 only affects how yt-dlp names its output,
which the download outcome already captures. -/
def download_audio (url : List Nat) (st : St) (env : Env) : HandlerOut :=
  let cache_filename := get_audio_cache_filename url
  let new_cache_filepath := joinPath AUDIO_CACHE_DIR cache_filename
  match cache_lookup st.cached_audio_path cache_filename with
  | some p =>
      { resp := .fileResponse p ("audio/mpeg".toList) cache_filename,
        st := { st with last_access_time := env.now },
        acquired := false }
  | none =>
      match download_and_extract_ffmpeg st.fs env.ffmpeg with
      | .error m => handler_except new_cache_filepath st (.pyErr m) false
      | .ok (_, fs1, _) =>
          match env.dl with
          | .raisesErr partialLeft m =>
              handler_except new_cache_filepath
                { st with fs := if partialLeft then new_cache_filepath :: fs1 else fs1 }
                (.pyErr m) true
          | .completes fileWritten =>
              let fs3 := if fileWritten then new_cache_filepath :: fs1 else fs1
              if new_cache_filepath ∈ fs3 then
                { resp := .fileResponse new_cache_filepath ("audio/mpeg".toList) cache_filename,
                  st := { fs := if truthy st.cached_audio_path = true ∧
                                   (st.cached_audio_path.getD []) ∈ fs3
                                then removeFile fs3 (st.cached_audio_path.getD [])
                                else fs3,
                          cached_video_path := st.cached_video_path,
                          cached_audio_path := some new_cache_filepath,
                          last_access_time := env.now },
                  acquired := true }
              else
                handler_except new_cache_filepath { st with fs := fs3 }
                  (.httpExc 404 ("Audio download failed".toList)) true

/-! ### Background sweepers (main.py lines 90-98 and 117-125) -/

/-- One iteration of the `clean_cache` loop body at wall-clock time `now`. -/
def clean_cache_step (st : St) (now : Int) : St :=
  if truthy st.cached_video_path = true ∧
     now - st.last_access_time > CACHE_EXPIRY_TIME then
    { st with
      fs := if (st.cached_video_path.getD []) ∈ st.fs
            then removeFile st.fs (st.cached_video_path.getD []) else st.fs,
      cached_video_path := none,
      last_access_time := 0 }
  else st

/-- One iteration of the `clean_audio_cache` loop body at time `now`. -/
def clean_audio_cache_step (st : St) (now : Int) : St :=
  if truthy st.cached_audio_path = true ∧
     now - st.last_access_time > CACHE_EXPIRY_TIME then
    { st with
      fs := if (st.cached_audio_path.getD []) ∈ st.fs
            then removeFile st.fs (st.cached_audio_path.getD []) else st.fs,
      cached_audio_path := none,
      last_access_time := 0 }
  else st

/-! ### Helper lemmas about the embedded definitions -/

theorem md5Bytes_length (msg : List Nat) : (md5Bytes msg).length = 16 := by
  unfold md5Bytes
  rcases md5Words msg with ⟨a, b, c, d⟩
  simp [wordBytes]

theorem md5Bytes_lt (msg : List Nat) : ∀ b ∈ md5Bytes msg, b < 256 := by
  unfold md5Bytes
  rcases md5Words msg with ⟨a, b, c, d⟩
  intro x hx
  simp [wordBytes] at hx
  rcases hx with h | h | h | h <;> rcases h with h | h | h | h <;> omega

theorem bytesToHex_length (bs : List Nat) :
    (bytesToHex bs).length = 2 * bs.length := by
  induction bs with
  | nil => rfl
  | cons b bs ih => simp [bytesToHex, ih]; omega

theorem md5Hex_length (msg : List Nat) : (md5Hex msg).length = 32 := by
  unfold md5Hex
  rw [bytesToHex_length, md5Bytes_length]

theorem hexChar_mem (n : Nat) : hexChar n ∈ hexDigits := by
  unfold hexChar
  rcases Nat.lt_or_ge n hexDigits.length with h | h
  · rw [List.getD_eq_getElem _ _ h]
    exact List.getElem_mem _
  · rw [List.getD_eq_default _ _ h]
    decide

theorem bytesToHex_mem_hexDigits (bs : List Nat) :
    ∀ c ∈ bytesToHex bs, c ∈ hexDigits := by
  induction bs with
  | nil => intro c hc; cases hc
  | cons b bs ih =>
    intro c hc
    rcases hc with _ | ⟨_, hc⟩
    · exact hexChar_mem _
    · rcases hc with _ | ⟨_, hc⟩
      · exact hexChar_mem _
      · exact ih c hc

theorem slash_not_mem_md5Hex (msg : List Nat) : '/' ∉ md5Hex msg := by
  intro h
  have := bytesToHex_mem_hexDigits (md5Bytes msg) _ h
  revert this
  decide

theorem slash_not_mem_video_filename (url : List Nat) :
    '/' ∉ get_cache_filename url := by
  unfold get_cache_filename
  intro h
  rcases List.mem_append.mp h with h | h
  · exact slash_not_mem_md5Hex url h
  · revert h; decide

theorem slash_not_mem_audio_filename (url : List Nat) :
    '/' ∉ get_audio_cache_filename url := by
  unfold get_audio_cache_filename
  intro h
  rcases List.mem_append.mp h with h | h
  · exact slash_not_mem_md5Hex url h
  · revert h; decide

theorem takeWhile_all_append {p : Char → Bool} (l : List Char) (x : Char)
    (r : List Char) (hl : ∀ c ∈ l, p c = true) (hx : p x = false) :
    (l ++ x :: r).takeWhile p = l := by
  induction l with
  | nil => simp [List.takeWhile_cons, hx]
  | cons a l ih =>
    have ha : p a = true := hl a (List.mem_cons_self a l)
    rw [List.cons_append, List.takeWhile_cons, ha]
    simp only [if_true]
    rw [ih (fun c hc => hl c (List.mem_cons_of_mem a hc))]

theorem basename_append (dir f : Str) (hf : '/' ∉ f) :
    basename (dir ++ '/' :: f) = f := by
  unfold basename
  rw [List.reverse_append, List.reverse_cons, List.append_assoc,
    List.singleton_append]
  rw [takeWhile_all_append f.reverse '/' dir.reverse]
  · exact List.reverse_reverse f
  · intro c hc
    simp only [decide_eq_true_eq]
    intro hceq
    exact hf (hceq ▸ List.mem_reverse.mp hc)
  · simp

theorem joinPath_no_slash (dir f : Str)
    (hf : '/' ∉ f) : joinPath dir f = dir ++ '/' :: f := by
  unfold joinPath
  split
  · next h =>
    exfalso
    rcases f with _ | ⟨c, f⟩
    · simp at h
    · simp at h
      exact hf (h ▸ List.mem_cons_self _ _)
  · rfl

theorem basename_joinPath_video (url : List Nat) :
    basename (joinPath CACHE_DIR (get_cache_filename url)) =
      get_cache_filename url := by
  rw [joinPath_no_slash _ _ (slash_not_mem_video_filename url)]
  exact basename_append _ _ (slash_not_mem_video_filename url)

theorem basename_joinPath_audio (url : List Nat) :
    basename (joinPath AUDIO_CACHE_DIR (get_audio_cache_filename url)) =
      get_audio_cache_filename url := by
  rw [joinPath_no_slash _ _ (slash_not_mem_audio_filename url)]
  exact basename_append _ _ (slash_not_mem_audio_filename url)

theorem mem_removeFile (fs : List Str) (p q : Str) :
    q ∈ removeFile fs p ↔ q ∈ fs ∧ q ≠ p := by
  unfold removeFile
  rw [List.mem_filter]
  simp

theorem not_mem_removeFile_self (fs : List Str) (p : Str) :
    p ∉ removeFile fs p := by
  intro h
  exact ((mem_removeFile fs p p).mp h).2 rfl

/-! ### Byte-string encodings (for the fingerprint collision analysis) -/

/-- Little-endian base-256 value of a byte list. -/
def bytesVal : List Nat → Nat
  | [] => 0
  | b :: bs => b + 256 * bytesVal bs

theorem bytesVal_lt (l : List Nat) (h : ∀ b ∈ l, b < 256) :
    bytesVal l < 256 ^ l.length := by
  induction l with
  | nil => simp [bytesVal]
  | cons b bs ih =>
    have hb : b < 256 := h b (List.mem_cons_self _ _)
    have hv : bytesVal bs < 256 ^ bs.length :=
      ih (fun x hx => h x (List.mem_cons_of_mem _ hx))
    simp only [bytesVal, List.length_cons, pow_succ]
    set P := (256 : Nat) ^ bs.length
    omega

theorem bytesVal_inj : ∀ l1 l2 : List Nat, l1.length = l2.length →
    (∀ b ∈ l1, b < 256) → (∀ b ∈ l2, b < 256) →
    bytesVal l1 = bytesVal l2 → l1 = l2 := by
  intro l1
  induction l1 with
  | nil =>
    intro l2 hlen _ _ _
    cases l2 with
    | nil => rfl
    | cons c cs => simp at hlen
  | cons b bs ih =>
    intro l2 hlen h1 h2 hv
    cases l2 with
    | nil => simp at hlen
    | cons c cs =>
      have hb : b < 256 := h1 b (List.mem_cons_self _ _)
      have hc : c < 256 := h2 c (List.mem_cons_self _ _)
      simp only [bytesVal] at hv
      have hlen' : bs.length = cs.length := by simpa using hlen
      have hbc : b = c ∧ bytesVal bs = bytesVal cs := by omega
      rw [hbc.1, ih cs hlen' (fun x hx => h1 x (List.mem_cons_of_mem _ hx))
        (fun x hx => h2 x (List.mem_cons_of_mem _ hx)) hbc.2]

theorem concat_ne (a b : Str) (c1 c2 : Char) (h : c1 ≠ c2) :
    a ++ [c1] ≠ b ++ [c2] := by
  intro heq
  have hl := congrArg List.getLast? heq
  rw [List.getLast?_concat, List.getLast?_concat] at hl
  exact h (Option.some.inj hl)

theorem video_audio_ext_ne (l1 l2 : Str) :
    l1 ++ ".mp4".toList ≠ l2 ++ ".mp3".toList := by
  have e4 : ".mp4".toList = ['.', 'm', 'p'] ++ ['4'] := by decide
  have e3 : ".mp3".toList = ['.', 'm', 'p'] ++ ['3'] := by decide
  rw [e4, e3, ← List.append_assoc, ← List.append_assoc]
  exact concat_ne _ _ '4' '3' (by decide)

/-- C1 (amended): two fingerprints coincide exactly when the kinds are equal
and the MD5 digests of the two URLs coincide.  In particular the Video and
Audio fingerprints of the same URL never collide, and fingerprints are
deterministic in (URL, kind). -/
theorem fingerprint_eq_iff :
    (∀ u : List Nat, fingerprint u MediaKind.video ≠ fingerprint u MediaKind.audio) ∧
    ∀ (u1 u2 : List Nat) (k1 k2 : MediaKind),
      fingerprint u1 k1 = fingerprint u2 k2 ↔ (k1 = k2 ∧ md5Hex u1 = md5Hex u2) := by
  constructor
  · intro u
    exact video_audio_ext_ne _ _
  · intro u1 u2 k1 k2
    cases k1 <;> cases k2 <;>
      simp only [fingerprint, get_cache_filename, get_audio_cache_filename]
    · constructor
      · intro h
        exact ⟨by trivial, List.append_left_injective _ h⟩
      · rintro ⟨-, h⟩
        rw [h]
    · constructor
      · intro h
        exact absurd h (video_audio_ext_ne _ _)
      · rintro ⟨h, -⟩
        exact absurd h (by simp)
    · constructor
      · intro h
        exact absurd h.symm (video_audio_ext_ne _ _)
      · rintro ⟨h, -⟩
        exact absurd h (by simp)
    · constructor
      · intro h
        exact ⟨by trivial, List.append_left_injective _ h⟩
      · rintro ⟨-, h⟩
        rw [h]

theorem bytesVal_md5Bytes_lt (u : List Nat) :
    bytesVal (md5Bytes u) < 256 ^ 16 := by
  have h := bytesVal_lt (md5Bytes u) (md5Bytes_lt u)
  rwa [md5Bytes_length] at h

/-- C1 (counterexample to the claim as stated): it is not true that distinct
(URL, kind) pairs always get distinct fingerprints.  The digest has fixed
width (16 bytes), so by pigeonhole over the infinitely many URLs two
distinct URLs of the same kind share a fingerprint. -/
theorem fingerprint_collisions_exist :
    ¬ (∀ (u1 u2 : List Nat) (k1 k2 : MediaKind),
        (u1, k1) ≠ (u2, k2) → fingerprint u1 k1 ≠ fingerprint u2 k2) := by
  intro hcl
  obtain ⟨n, m, hnm, heq⟩ := Finite.exists_ne_map_eq_of_infinite
    (fun n : ℕ =>
      (⟨bytesVal (md5Bytes (List.replicate n 0)),
        bytesVal_md5Bytes_lt (List.replicate n 0)⟩ : Fin (256 ^ 16)))
  simp only [Fin.mk.injEq] at heq
  have hbytes : md5Bytes (List.replicate n 0) = md5Bytes (List.replicate m 0) :=
    bytesVal_inj (md5Bytes (List.replicate n 0)) (md5Bytes (List.replicate m 0))
      (by rw [md5Bytes_length, md5Bytes_length])
      (md5Bytes_lt _) (md5Bytes_lt _) heq
  have hfp : fingerprint (List.replicate n 0) MediaKind.video
      = fingerprint (List.replicate m 0) MediaKind.video := by
    show get_cache_filename _ = get_cache_filename _
    unfold get_cache_filename md5Hex
    rw [hbytes]
  have hne : List.replicate n 0 ≠ List.replicate m 0 := by
    intro h
    have hlen := congrArg List.length h
    simp at hlen
    exact hnm hlen
  exact hcl _ _ _ _ (fun hp => hne (congrArg Prod.fst hp)) hfp

/-- C10: the cache filename is exactly the 32-character lowercase-hex MD5
digest of the URL plus the fixed kind extension; it contains no path
separator, so the destination path is a direct child of the kind-specific
cache directory and carries no URL content. -/
theorem cache_filename_safe (url : List Nat) :
    get_cache_filename url = md5Hex url ++ ".mp4".toList ∧
    get_audio_cache_filename url = md5Hex url ++ ".mp3".toList ∧
    (md5Hex url).length = 32 ∧
    (∀ c ∈ md5Hex url, c ∈ hexDigits) ∧
    (∀ c ∈ get_cache_filename url, c ∈ hexDigits ++ ".mp4".toList) ∧
    (∀ c ∈ get_audio_cache_filename url, c ∈ hexDigits ++ ".mp3".toList) ∧
    '/' ∉ get_cache_filename url ∧
    '/' ∉ get_audio_cache_filename url ∧
    joinPath CACHE_DIR (get_cache_filename url)
      = CACHE_DIR ++ '/' :: get_cache_filename url ∧
    joinPath AUDIO_CACHE_DIR (get_audio_cache_filename url)
      = AUDIO_CACHE_DIR ++ '/' :: get_audio_cache_filename url := by
  refine ⟨rfl, rfl, md5Hex_length url, bytesToHex_mem_hexDigits _, ?_, ?_,
    slash_not_mem_video_filename url, slash_not_mem_audio_filename url,
    joinPath_no_slash _ _ (slash_not_mem_video_filename url),
    joinPath_no_slash _ _ (slash_not_mem_audio_filename url)⟩
  · intro c hc
    rw [List.mem_append]
    rcases List.mem_append.mp hc with h | h
    · exact Or.inl (bytesToHex_mem_hexDigits _ c h)
    · exact Or.inr h
  · intro c hc
    rw [List.mem_append]
    rcases List.mem_append.mp hc with h | h
    · exact Or.inl (bytesToHex_mem_hexDigits _ c h)
    · exact Or.inr h

/-! ### Concrete sample data used by witnesses and counterexamples -/

/-- A sample video cache path (resident of the video slot in examples). -/
def vPath0 : Str := "/tmp/video_cache/v.mp4".toList

/-- A sample audio cache path (resident of the audio slot in examples). -/
def aPath0 : Str := "/tmp/audio_cache/a.mp3".toList

/-- Sample state: both slots resident, shared timestamp 100. -/
def stBoth : St :=
  { fs := [vPath0, aPath0], cached_video_path := some vPath0,
    cached_audio_path := some aPath0, last_access_time := 100 }

/-- C9: the external-binary installation is idempotent.  If the binary is
already at the fixed config location the call returns that path with the
filesystem unchanged and no download; and after any successful call, a
second call returns the same path and filesystem with no download. -/
theorem download_and_extract_ffmpeg_idempotent :
    (∀ (fs : List Str) (o : FfmpegOutcome), ffmpeg_path ∈ fs →
      download_and_extract_ffmpeg fs o = Except.ok (ffmpeg_path, fs, false)) ∧
    (∀ (fs : List Str) (o o2 : FfmpegOutcome) (p : Str) (fs2 : List Str) (d : Bool),
      download_and_extract_ffmpeg fs o = Except.ok (p, fs2, d) →
      download_and_extract_ffmpeg fs2 o2 = Except.ok (p, fs2, false)) := by
  constructor
  · intro fs o h
    unfold download_and_extract_ffmpeg
    rw [if_pos h]
  · intro fs o o2 p fs2 d hcall
    unfold download_and_extract_ffmpeg at hcall ⊢
    by_cases h : ffmpeg_path ∈ fs
    · rw [if_pos h] at hcall
      simp only [Except.ok.injEq, Prod.mk.injEq] at hcall
      obtain ⟨hp, hfs, -⟩ := hcall
      subst hp
      subst hfs
      rw [if_pos h]
    · rw [if_neg h] at hcall
      cases o with
      | ok =>
        simp only [Except.ok.injEq, Prod.mk.injEq] at hcall
        obtain ⟨hp, hfs, -⟩ := hcall
        subst hp
        subst hfs
        rw [if_pos (List.mem_cons_self _ _)]
      | err m => exact absurd hcall (by simp)

/-- Witness for C9 at concrete inputs. -/
theorem download_and_extract_ffmpeg_idempotent_witness :
    download_and_extract_ffmpeg [ffmpeg_path] FfmpegOutcome.ok
      = Except.ok (ffmpeg_path, [ffmpeg_path], false) ∧
    download_and_extract_ffmpeg [ffmpeg_path] (FfmpegOutcome.err [])
      = Except.ok (ffmpeg_path, [ffmpeg_path], false) :=
  ⟨download_and_extract_ffmpeg_idempotent.1 [ffmpeg_path] FfmpegOutcome.ok
      (by decide),
   download_and_extract_ffmpeg_idempotent.2 [] FfmpegOutcome.ok
      (FfmpegOutcome.err []) ffmpeg_path [ffmpeg_path] true (by rfl)⟩

/-- C3 (counterexample to the claim as stated): a sweeper eviction of the
video slot resets the shared `last_access_time` global — which is exactly
the audio slot's lastAccess timestamp (read by `clean_audio_cache` and
written by the audio handler) — while the audio slot is resident.  So a
slot operation on one MediaKind does not leave the other kind's lastAccess
unchanged. -/
theorem clean_cache_changes_shared_last_access :
    truthy stBoth.cached_audio_path = true ∧
    (clean_cache_step stBoth 1001).cached_audio_path = stBoth.cached_audio_path ∧
    (clean_cache_step stBoth 1001).cached_video_path = none ∧
    stBoth.last_access_time = 100 ∧
    (clean_cache_step stBoth 1001).last_access_time = 0 ∧
    (clean_cache_step stBoth 1001).last_access_time ≠ stBoth.last_access_time := by
  decide

/-- C3 (amended): every slot operation on one MediaKind leaves the other
kind's resident path (hence its fingerprint) unchanged; the lastAccess
timestamp, however, is a single shared global updated by operations of
either kind. -/
theorem slot_ops_preserve_other_kind :
    (∀ url st env,
      ((download_video url st env).st).cached_audio_path = st.cached_audio_path) ∧
    (∀ url st env,
      ((download_audio url st env).st).cached_video_path = st.cached_video_path) ∧
    (∀ st now,
      (clean_cache_step st now).cached_audio_path = st.cached_audio_path) ∧
    (∀ st now,
      (clean_audio_cache_step st now).cached_video_path = st.cached_video_path) := by
  refine ⟨?_, ?_, ?_, ?_⟩
  · intro url st env
    simp only [download_video]
    cases cache_lookup st.cached_video_path (get_cache_filename url) with
    | some p => rfl
    | none =>
      cases download_and_extract_ffmpeg st.fs env.ffmpeg with
      | error m => rfl
      | ok r =>
        obtain ⟨fp, fs1, dflag⟩ := r
        cases env.dl with
        | raisesErr pl m => rfl
        | completes w =>
          dsimp only
          split <;> split <;> rfl
  · intro url st env
    simp only [download_audio]
    cases cache_lookup st.cached_audio_path (get_audio_cache_filename url) with
    | some p => rfl
    | none =>
      cases download_and_extract_ffmpeg st.fs env.ffmpeg with
      | error m => rfl
      | ok r =>
        obtain ⟨fp, fs1, dflag⟩ := r
        cases env.dl with
        | raisesErr pl m => rfl
        | completes w =>
          dsimp only
          split <;> split <;> rfl
  · intro st now
    unfold clean_cache_step
    split <;> rfl
  · intro st now
    unfold clean_audio_cache_step
    split <;> rfl

/-- The video cache path of the sample URL byte string `[97]` ("a"). -/
def vHit0 : Str := joinPath CACHE_DIR (get_cache_filename [97])

/-- Sample state: the video slot holds the resident for URL `[97]`. -/
def stHit : St :=
  { fs := [vHit0], cached_video_path := some vHit0,
    cached_audio_path := none, last_access_time := 0 }

/-- Sample environment used with `stHit`. -/
def envC4 : Env :=
  { now := 50, ffmpeg := FfmpegOutcome.ok, dl := DlOutcome.completes false }

/-- Video-side sweep characterisation: the sweeper evicts (removes the
resident file and clears residency) iff a resident exists and
`now - last_access_time` strictly exceeds the fixed 15-minute threshold;
otherwise the state is untouched.  A lookup hit resets the idle clock, so a
sweep at the same wall-clock time does not evict. -/
theorem clean_cache_step_iff (st : St) (now : Int) :
    CACHE_EXPIRY_TIME = 15 * 60 ∧
    ((truthy st.cached_video_path = true ∧
        now - st.last_access_time > CACHE_EXPIRY_TIME) →
      clean_cache_step st now =
        { fs := if (st.cached_video_path.getD []) ∈ st.fs
                then removeFile st.fs (st.cached_video_path.getD []) else st.fs,
          cached_video_path := none,
          cached_audio_path := st.cached_audio_path,
          last_access_time := 0 } ∧
      (st.cached_video_path.getD []) ∉ (clean_cache_step st now).fs ∧
      (clean_cache_step st now).cached_video_path = none) ∧
    (¬ (truthy st.cached_video_path = true ∧
        now - st.last_access_time > CACHE_EXPIRY_TIME) →
      clean_cache_step st now = st) ∧
    (∀ url env p, env.now = now →
      cache_lookup st.cached_video_path (get_cache_filename url) = some p →
      clean_cache_step ((download_video url st env).st) now
        = (download_video url st env).st) := by
  refine ⟨rfl, ?_, ?_, ?_⟩
  · intro h
    have heq : clean_cache_step st now =
        { fs := if (st.cached_video_path.getD []) ∈ st.fs
                then removeFile st.fs (st.cached_video_path.getD []) else st.fs,
          cached_video_path := none,
          cached_audio_path := st.cached_audio_path,
          last_access_time := 0 } := by
      unfold clean_cache_step
      rw [if_pos h]
    refine ⟨heq, ?_, by rw [heq]⟩
    rw [heq]
    dsimp only
    split
    · exact not_mem_removeFile_self _ _
    · next hmem => exact hmem
  · intro h
    unfold clean_cache_step
    rw [if_neg h]
  · intro url env p hnow hp
    have hst : (download_video url st env).st
        = { st with last_access_time := env.now } := by
      simp only [download_video]
      rw [hp]
    rw [hst]
    have hc : ¬ (truthy ({ st with last_access_time := env.now } : St).cached_video_path
          = true ∧
        now - ({ st with last_access_time := env.now } : St).last_access_time
          > CACHE_EXPIRY_TIME) := by
      rintro ⟨-, h2⟩
      have h3 : now - env.now > (900 : Int) := h2
      rw [hnow] at h3
      omega
    unfold clean_cache_step
    rw [if_neg hc]

/-- Empty initial process state (directories fresh, no residents). -/
def stEmpty : St :=
  { fs := [], cached_video_path := none, cached_audio_path := none,
    last_access_time := 0 }

/-- Environment in which the downloader completes without writing the
expected output file. -/
def envNoFile : Env :=
  { now := 5, ffmpeg := FfmpegOutcome.ok, dl := DlOutcome.completes false }

/-- C2: when the acquisition completes but the expected output file is
missing, the handler does NOT respond 404: the `HTTPException(404, ...)`
raised on main.py line 159 (resp. 210) is caught by the handler's own
blanket `except Exception` and re-raised as
`HTTPException(500, str(e))`, so the client receives status 500 with the
stringified 404 exception as detail. -/
theorem download_missing_output_gives_500 :
    (download_video [97] stEmpty envNoFile).resp
      = Resp.httpError 500 ("404: Video download failed".toList) ∧
    (download_audio [97] stEmpty envNoFile).resp
      = Resp.httpError 500 ("404: Audio download failed".toList) := by
  constructor <;> decide

/-- The common `except` block: response 500, slot fields untouched, the
destination file absent afterwards, all other files untouched. -/
theorem handler_except_spec (dest : Str) (st : St) (e : Exn) (a : Bool) :
    (handler_except dest st e a).resp = Resp.httpError 500 (exnMsg e) ∧
    ((handler_except dest st e a).st).cached_video_path = st.cached_video_path ∧
    ((handler_except dest st e a).st).cached_audio_path = st.cached_audio_path ∧
    ((handler_except dest st e a).st).last_access_time = st.last_access_time ∧
    dest ∉ ((handler_except dest st e a).st).fs ∧
    ∀ q, q ≠ dest → (q ∈ ((handler_except dest st e a).st).fs ↔ q ∈ st.fs) := by
  refine ⟨rfl, rfl, rfl, rfl, ?_, ?_⟩
  · dsimp only [handler_except]
    split
    · exact not_mem_removeFile_self _ _
    · next hmem => exact hmem
  · intro q hq
    dsimp only [handler_except]
    split
    · rw [mem_removeFile]
      exact ⟨fun h => h.1, fun h => ⟨h, hq⟩⟩
    · exact Iff.rfl

/-- The filesystem effect of the ffmpeg step when it succeeds. -/
def ffmpegFs (fs : List Str) : List Str :=
  if ffmpeg_path ∈ fs then fs else ffmpeg_path :: fs

theorem ffmpeg_ok_result (fs : List Str) :
    ∃ d, download_and_extract_ffmpeg fs FfmpegOutcome.ok
      = Except.ok (ffmpeg_path, ffmpegFs fs, d) := by
  unfold download_and_extract_ffmpeg ffmpegFs
  split
  · exact ⟨false, rfl⟩
  · exact ⟨true, rfl⟩

theorem mem_ffmpegFs (fs : List Str) (q : Str) (h : q ∈ fs) : q ∈ ffmpegFs fs := by
  unfold ffmpegFs
  split
  · exact h
  · exact List.mem_cons_of_mem _ h

theorem mem_get_ytdlp_config (fs : List Str) (q : Str) (h : q ∈ fs) :
    q ∈ get_ytdlp_config fs := by
  unfold get_ytdlp_config
  split
  · exact h
  · exact List.mem_cons_of_mem _ h

/-- The video destination path computed by the handler. -/
def videoDest (url : List Nat) : Str := joinPath CACHE_DIR (get_cache_filename url)

/-- The audio destination path computed by the handler. -/
def audioDest (url : List Nat) : Str :=
  joinPath AUDIO_CACHE_DIR (get_audio_cache_filename url)

/-- Environment in which the downloader raises, leaving a partial file. -/
def envFail : Env :=
  { now := 7, ffmpeg := FfmpegOutcome.ok,
    dl := DlOutcome.raisesErr true ("boom".toList) }

/-- Video-side failure frame property: when the acquisition fails (ffmpeg
setup error or downloader exception), the handler returns a 500 error
response, does not touch the slot (resident path and the shared lastAccess
are unchanged — no replace), and any partial file at the computed
destination is removed. -/
theorem download_video_failure_no_mutation (url : List Nat) (st : St) (env : Env)
    (hmiss : cache_lookup st.cached_video_path (get_cache_filename url) = none)
    (hfail : (∃ m, download_and_extract_ffmpeg st.fs env.ffmpeg = Except.error m) ∨
             (∃ b m, env.dl = DlOutcome.raisesErr b m)) :
    (∃ d, (download_video url st env).resp = Resp.httpError 500 d) ∧
    ((download_video url st env).st).cached_video_path = st.cached_video_path ∧
    ((download_video url st env).st).cached_audio_path = st.cached_audio_path ∧
    ((download_video url st env).st).last_access_time = st.last_access_time ∧
    videoDest url ∉ ((download_video url st env).st).fs := by
  simp only [download_video]
  rw [hmiss]
  rcases hfail with ⟨m, herr⟩ | ⟨b, m, hdl⟩
  · rw [herr]
    obtain ⟨h1, h2, h3, h4, h5, -⟩ :=
      handler_except_spec (joinPath CACHE_DIR (get_cache_filename url)) st
        (Exn.pyErr m) false
    exact ⟨⟨exnMsg (Exn.pyErr m), h1⟩, h2, h3, h4, h5⟩
  · cases hff : download_and_extract_ffmpeg st.fs env.ffmpeg with
    | error m2 =>
      obtain ⟨h1, h2, h3, h4, h5, -⟩ :=
        handler_except_spec (joinPath CACHE_DIR (get_cache_filename url)) st
          (Exn.pyErr m2) false
      exact ⟨⟨exnMsg (Exn.pyErr m2), h1⟩, h2, h3, h4, h5⟩
    | ok r =>
      obtain ⟨fp, fs1, dflag⟩ := r
      rw [hdl]
      dsimp only
      obtain ⟨h1, h2, h3, h4, h5, -⟩ :=
        handler_except_spec (joinPath CACHE_DIR (get_cache_filename url))
          { st with fs := if b = true
              then joinPath CACHE_DIR (get_cache_filename url) :: get_ytdlp_config fs1
              else get_ytdlp_config fs1 }
          (Exn.pyErr m) true
      exact ⟨⟨exnMsg (Exn.pyErr m), h1⟩, h2, h3, h4, h5⟩

/-! ### The successful-miss and hit shapes of the video handler -/

theorem truthy_some_of_ne_nil (p : Str) (h : p ≠ []) : truthy (some p) = true := by
  unfold truthy
  cases p with
  | nil => exact absurd rfl h
  | cons c cs => rfl

theorem get_cache_filename_ne_nil (url : List Nat) : get_cache_filename url ≠ [] := by
  intro h
  have hlen := congrArg List.length h
  rw [get_cache_filename, List.length_append, md5Hex_length] at hlen
  simp at hlen

theorem truthy_videoDest (url : List Nat) : truthy (some (videoDest url)) = true := by
  unfold videoDest
  rw [joinPath_no_slash _ _ (slash_not_mem_video_filename url)]
  rfl

theorem cache_lookup_none_of_basename_ne (cached : Option Str) (f : Str)
    (h : basename (cached.getD []) ≠ f) : cache_lookup cached f = none := by
  unfold cache_lookup
  rw [if_neg]
  rintro ⟨-, hb⟩
  exact h hb

theorem cache_lookup_some (p f : Str) (ht : truthy (some p) = true)
    (hb : basename p = f) : cache_lookup (some p) f = some p := by
  unfold cache_lookup
  rw [if_pos ⟨ht, hb⟩]

theorem basename_ne_of_lookup_none (cached : Option Str) (f : Str)
    (h : cache_lookup cached f = none) (ht : truthy cached = true) :
    basename (cached.getD []) ≠ f := by
  intro hb
  unfold cache_lookup at h
  rw [if_pos ⟨ht, hb⟩] at h
  cases cached with
  | none => simp [truthy] at ht
  | some p => exact Option.noConfusion h

/-- A hit returns the resident path, only touching `last_access_time`. -/
theorem download_video_hit (url : List Nat) (st : St) (env : Env) (p : Str)
    (hp : cache_lookup st.cached_video_path (get_cache_filename url) = some p) :
    download_video url st env =
      { resp := Resp.fileResponse p ("video/mp4".toList) (get_cache_filename url),
        st := { st with last_access_time := env.now },
        acquired := false } := by
  simp only [download_video]
  rw [hp]

/-- Filesystem after a successful miss: the new file is written and the
previous resident (if any, and if on disk) is removed. -/
def videoSuccessFs (url : List Nat) (st : St) : List Str :=
  if truthy st.cached_video_path = true ∧
     (st.cached_video_path.getD [])
       ∈ (videoDest url :: get_ytdlp_config (ffmpegFs st.fs))
  then removeFile (videoDest url :: get_ytdlp_config (ffmpegFs st.fs))
       (st.cached_video_path.getD [])
  else videoDest url :: get_ytdlp_config (ffmpegFs st.fs)

/-- A miss with working ffmpeg and a download that writes the file takes
the replace path. -/
theorem download_video_success (url : List Nat) (st : St) (env : Env)
    (hmiss : cache_lookup st.cached_video_path (get_cache_filename url) = none)
    (hff : env.ffmpeg = FfmpegOutcome.ok)
    (hdl : env.dl = DlOutcome.completes true) :
    download_video url st env =
      { resp := Resp.fileResponse (videoDest url) ("video/mp4".toList)
          (get_cache_filename url),
        st := { fs := videoSuccessFs url st,
                cached_video_path := some (videoDest url),
                cached_audio_path := st.cached_audio_path,
                last_access_time := env.now },
        acquired := true } := by
  simp only [download_video]
  rw [hmiss, hff]
  obtain ⟨d, hok⟩ := ffmpeg_ok_result st.fs
  rw [hok, hdl]
  dsimp only
  rw [if_pos rfl, if_pos (List.mem_cons_self _ _)]
  rfl

/-- `basename` of the computed video destination is the cache filename. -/
theorem basename_videoDest (url : List Nat) :
    basename (videoDest url) = get_cache_filename url :=
  basename_joinPath_video url

/-- Environment of a fully successful acquisition. -/
def envSucc : Env :=
  { now := 9, ffmpeg := FfmpegOutcome.ok, dl := DlOutcome.completes true }

/-- Video-side replace property: a successful acquisition for a URL with a
different fingerprint replaces the resident: the old file is deleted, a
lookup of the old fingerprint misses, and the slot holds the new
fingerprint's path. -/
theorem replace_evicts_previous (u1 u2 : List Nat) (st : St) (env : Env) (p1 : Str)
    (hres : st.cached_video_path = some p1)
    (hbase : basename p1 = get_cache_filename u1)
    (hne : get_cache_filename u1 ≠ get_cache_filename u2)
    (hp1 : p1 ∈ st.fs)
    (hff : env.ffmpeg = FfmpegOutcome.ok)
    (hdl : env.dl = DlOutcome.completes true) :
    p1 ∉ ((download_video u2 st env).st).fs ∧
    ((download_video u2 st env).st).cached_video_path = some (videoDest u2) ∧
    videoDest u2 ∈ ((download_video u2 st env).st).fs ∧
    cache_lookup ((download_video u2 st env).st).cached_video_path
      (get_cache_filename u1) = none ∧
    cache_lookup ((download_video u2 st env).st).cached_video_path
      (get_cache_filename u2) = some (videoDest u2) := by
  have hp1nil : p1 ≠ [] := by
    intro h
    rw [h] at hbase
    have hb : ([] : Str) = get_cache_filename u1 := hbase
    exact get_cache_filename_ne_nil u1 hb.symm
  have hmiss : cache_lookup st.cached_video_path (get_cache_filename u2) = none := by
    rw [hres]
    apply cache_lookup_none_of_basename_ne
    intro h
    have hb : basename p1 = get_cache_filename u2 := h
    exact hne (hbase.symm.trans hb)
  have hdne : videoDest u2 ≠ p1 := by
    intro h
    apply hne
    rw [← hbase, ← h]
    exact basename_videoDest u2
  have hcond : truthy st.cached_video_path = true ∧
      (st.cached_video_path.getD [])
        ∈ (videoDest u2 :: get_ytdlp_config (ffmpegFs st.fs)) := by
    rw [hres]
    exact ⟨truthy_some_of_ne_nil p1 hp1nil,
      List.mem_cons_of_mem _ (mem_get_ytdlp_config _ _ (mem_ffmpegFs _ _ hp1))⟩
  have hfs : videoSuccessFs u2 st
      = removeFile (videoDest u2 :: get_ytdlp_config (ffmpegFs st.fs)) p1 := by
    unfold videoSuccessFs
    rw [if_pos hcond, hres]
    exact rfl
  rw [download_video_success u2 st env hmiss hff hdl]
  dsimp only
  refine ⟨?_, rfl, ?_, ?_, ?_⟩
  · rw [hfs]
    exact not_mem_removeFile_self _ _
  · rw [hfs, mem_removeFile]
    exact ⟨List.mem_cons_self _ _, hdne⟩
  · apply cache_lookup_none_of_basename_ne
    intro h
    have hb : basename (videoDest u2) = get_cache_filename u1 := h
    rw [basename_videoDest u2] at hb
    exact hne hb.symm
  · exact cache_lookup_some _ _ (truthy_videoDest u2) (basename_videoDest u2)

/-- Video-side hit-after-replace property: after a successful replace for
URL `u`, the file is resident and on disk, and a second request for `u` is
a pure hit: it returns the cached path, updates only `last_access_time`,
and invokes no new acquisition. -/
theorem hit_after_replace (u : List Nat) (st : St) (env env2 : Env)
    (hmiss : cache_lookup st.cached_video_path (get_cache_filename u) = none)
    (hff : env.ffmpeg = FfmpegOutcome.ok)
    (hdl : env.dl = DlOutcome.completes true) :
    ((download_video u st env).st).cached_video_path = some (videoDest u) ∧
    videoDest u ∈ ((download_video u st env).st).fs ∧
    ((download_video u st env).st).last_access_time = env.now ∧
    cache_lookup ((download_video u st env).st).cached_video_path
      (get_cache_filename u) = some (videoDest u) ∧
    download_video u ((download_video u st env).st) env2 =
      { resp := Resp.fileResponse (videoDest u) ("video/mp4".toList)
          (get_cache_filename u),
        st := { (download_video u st env).st with last_access_time := env2.now },
        acquired := false } := by
  rw [download_video_success u st env hmiss hff hdl]
  dsimp only
  refine ⟨rfl, ?_, rfl, ?_, ?_⟩
  · unfold videoSuccessFs
    split
    · next hcond =>
      rw [mem_removeFile]
      refine ⟨List.mem_cons_self _ _, ?_⟩
      intro hEq
      have hb := basename_ne_of_lookup_none st.cached_video_path
        (get_cache_filename u) hmiss hcond.1
      apply hb
      rw [← hEq]
      exact basename_videoDest u
    · exact List.mem_cons_self _ _
  · exact cache_lookup_some _ _ (truthy_videoDest u) (basename_videoDest u)
  · exact download_video_hit u _ env2 (videoDest u)
      (cache_lookup_some _ _ (truthy_videoDest u) (basename_videoDest u))

/-- Whatever branch the ffmpeg step takes, a successful result's
filesystem contains every previously existing path. -/
theorem ffmpeg_ok_fs_mono (fs : List Str) (o : FfmpegOutcome) (fp : Str)
    (fs2 : List Str) (d : Bool)
    (h : download_and_extract_ffmpeg fs o = Except.ok (fp, fs2, d)) :
    ∀ q ∈ fs, q ∈ fs2 := by
  unfold download_and_extract_ffmpeg at h
  by_cases hm : ffmpeg_path ∈ fs
  · rw [if_pos hm] at h
    simp only [Except.ok.injEq, Prod.mk.injEq] at h
    obtain ⟨-, h2, -⟩ := h
    subst h2
    exact fun q hq => hq
  · rw [if_neg hm] at h
    cases o with
    | ok =>
      simp only [Except.ok.injEq, Prod.mk.injEq] at h
      obtain ⟨-, h2, -⟩ := h
      subst h2
      exact fun q hq => List.mem_cons_of_mem _ hq
    | err m => exact absurd h (by simp)

/-- C8: a request whose fingerprint does not match the resident is a plain
miss: the lookup returns none; if the request then fails, the resident slot
entry and the resident file survive untouched; and in every outcome the
slot either still holds the old resident or holds the newly replaced
destination — a mismatch alone never clears it. -/
theorem lookup_mismatch_plain_miss (url : List Nat) (st : St) (env : Env) (p : Str)
    (hres : st.cached_video_path = some p)
    (hbase : basename p ≠ get_cache_filename url) :
    cache_lookup st.cached_video_path (get_cache_filename url) = none ∧
    (∀ d, (download_video url st env).resp = Resp.httpError 500 d →
      ((download_video url st env).st).cached_video_path = some p ∧
      (p ∈ st.fs → p ∈ ((download_video url st env).st).fs)) ∧
    (((download_video url st env).st).cached_video_path = some p ∨
      ((download_video url st env).st).cached_video_path = some (videoDest url)) := by
  have hpne : p ≠ videoDest url := by
    intro h
    apply hbase
    rw [h]
    exact basename_videoDest url
  have hmiss : cache_lookup st.cached_video_path (get_cache_filename url) = none := by
    rw [hres]
    apply cache_lookup_none_of_basename_ne
    intro h
    exact hbase h
  refine ⟨hmiss, ?_⟩
  simp only [download_video]
  rw [hmiss]
  cases hff : download_and_extract_ffmpeg st.fs env.ffmpeg with
  | error m =>
    obtain ⟨-, h2, -, -, -, h6⟩ :=
      handler_except_spec (joinPath CACHE_DIR (get_cache_filename url)) st
        (Exn.pyErr m) false
    constructor
    · intro d _
      rw [h2, hres]
      exact ⟨rfl, fun hp => (h6 p hpne).mpr hp⟩
    · left
      rw [h2, hres]
  | ok r =>
    obtain ⟨fp, fs1, dflag⟩ := r
    have hmono : p ∈ st.fs → p ∈ get_ytdlp_config fs1 := fun hp =>
      mem_get_ytdlp_config _ _ (ffmpeg_ok_fs_mono st.fs env.ffmpeg fp fs1 dflag hff p hp)
    cases hdl : env.dl with
    | raisesErr b m =>
      dsimp only
      obtain ⟨-, h2, -, -, -, h6⟩ :=
        handler_except_spec (joinPath CACHE_DIR (get_cache_filename url))
          { st with fs := if b = true
              then joinPath CACHE_DIR (get_cache_filename url) :: get_ytdlp_config fs1
              else get_ytdlp_config fs1 }
          (Exn.pyErr m) true
      constructor
      · intro d _
        rw [h2]
        refine ⟨hres, fun hp => ?_⟩
        apply (h6 p hpne).mpr
        show p ∈ (if b = true
            then joinPath CACHE_DIR (get_cache_filename url) :: get_ytdlp_config fs1
            else get_ytdlp_config fs1)
        split
        · exact List.mem_cons_of_mem _ (hmono hp)
        · exact hmono hp
      · left
        rw [h2]
        exact hres
    | completes w =>
      dsimp only
      split
      · rw [if_pos (List.mem_cons_self _ _)]
        constructor
        · intro d hd
          exact absurd hd (by simp)
        · right
          exact rfl
      · split
        · constructor
          · intro d hd
            exact absurd hd (by simp)
          · right
            exact rfl
        · obtain ⟨-, h2, -, -, -, h6⟩ :=
            handler_except_spec (joinPath CACHE_DIR (get_cache_filename url))
              { st with fs := get_ytdlp_config fs1 }
              (Exn.httpExc 404 ("Video download failed".toList)) true
          constructor
          · intro d _
            rw [h2]
            refine ⟨hres, fun hp => ?_⟩
            exact (h6 p hpne).mpr (hmono hp)
          · left
            rw [h2]
            exact hres

/-- Witness for C8: a mismatching request against a resident slot whose
acquisition then raises leaves resident entry and file untouched. -/
theorem lookup_mismatch_plain_miss_witness :
    cache_lookup stBoth.cached_video_path (get_cache_filename [97]) = none ∧
    (∀ d, (download_video [97] stBoth envFail).resp = Resp.httpError 500 d →
      ((download_video [97] stBoth envFail).st).cached_video_path = some vPath0 ∧
      (vPath0 ∈ stBoth.fs →
        vPath0 ∈ ((download_video [97] stBoth envFail).st).fs)) ∧
    (((download_video [97] stBoth envFail).st).cached_video_path = some vPath0 ∨
      ((download_video [97] stBoth envFail).st).cached_video_path
        = some (videoDest [97])) :=
  lookup_mismatch_plain_miss [97] stBoth envFail vPath0 rfl (by decide)

/-! ### Audio-handler counterparts of the hit / success / failure shapes -/

theorem get_audio_cache_filename_ne_nil (url : List Nat) :
    get_audio_cache_filename url ≠ [] := by
  intro h
  have hlen := congrArg List.length h
  rw [get_audio_cache_filename, List.length_append, md5Hex_length] at hlen
  simp at hlen

theorem truthy_audioDest (url : List Nat) : truthy (some (audioDest url)) = true := by
  unfold audioDest
  rw [joinPath_no_slash _ _ (slash_not_mem_audio_filename url)]
  rfl

/-- `basename` of the computed audio destination is the cache filename. -/
theorem basename_audioDest (url : List Nat) :
    basename (audioDest url) = get_audio_cache_filename url :=
  basename_joinPath_audio url

/-- An audio hit returns the resident path, touching only `last_access_time`. -/
theorem download_audio_hit (url : List Nat) (st : St) (env : Env) (p : Str)
    (hp : cache_lookup st.cached_audio_path (get_audio_cache_filename url)
      = some p) :
    download_audio url st env =
      { resp := Resp.fileResponse p ("audio/mpeg".toList)
          (get_audio_cache_filename url),
        st := { st with last_access_time := env.now },
        acquired := false } := by
  simp only [download_audio]
  rw [hp]

/-- Filesystem after a successful audio miss. -/
def audioSuccessFs (url : List Nat) (st : St) : List Str :=
  if truthy st.cached_audio_path = true ∧
     (st.cached_audio_path.getD []) ∈ (audioDest url :: ffmpegFs st.fs)
  then removeFile (audioDest url :: ffmpegFs st.fs) (st.cached_audio_path.getD [])
  else audioDest url :: ffmpegFs st.fs

theorem download_audio_success (url : List Nat) (st : St) (env : Env)
    (hmiss : cache_lookup st.cached_audio_path (get_audio_cache_filename url)
      = none)
    (hff : env.ffmpeg = FfmpegOutcome.ok)
    (hdl : env.dl = DlOutcome.completes true) :
    download_audio url st env =
      { resp := Resp.fileResponse (audioDest url) ("audio/mpeg".toList)
          (get_audio_cache_filename url),
        st := { fs := audioSuccessFs url st,
                cached_video_path := st.cached_video_path,
                cached_audio_path := some (audioDest url),
                last_access_time := env.now },
        acquired := true } := by
  simp only [download_audio]
  rw [hmiss, hff]
  obtain ⟨d, hok⟩ := ffmpeg_ok_result st.fs
  rw [hok, hdl]
  dsimp only
  rw [if_pos rfl, if_pos (List.mem_cons_self _ _)]
  rfl

/-- Audio counterpart of the failure frame property. -/
theorem download_audio_failure_no_mutation (url : List Nat) (st : St) (env : Env)
    (hmiss : cache_lookup st.cached_audio_path (get_audio_cache_filename url)
      = none)
    (hfail : (∃ m, download_and_extract_ffmpeg st.fs env.ffmpeg = Except.error m) ∨
             (∃ b m, env.dl = DlOutcome.raisesErr b m)) :
    (∃ d, (download_audio url st env).resp = Resp.httpError 500 d) ∧
    ((download_audio url st env).st).cached_video_path = st.cached_video_path ∧
    ((download_audio url st env).st).cached_audio_path = st.cached_audio_path ∧
    ((download_audio url st env).st).last_access_time = st.last_access_time ∧
    audioDest url ∉ ((download_audio url st env).st).fs := by
  simp only [download_audio]
  rw [hmiss]
  rcases hfail with ⟨m, herr⟩ | ⟨b, m, hdl⟩
  · rw [herr]
    obtain ⟨h1, h2, h3, h4, h5, -⟩ :=
      handler_except_spec (joinPath AUDIO_CACHE_DIR (get_audio_cache_filename url))
        st (Exn.pyErr m) false
    exact ⟨⟨exnMsg (Exn.pyErr m), h1⟩, h2, h3, h4, h5⟩
  · cases hff : download_and_extract_ffmpeg st.fs env.ffmpeg with
    | error m2 =>
      obtain ⟨h1, h2, h3, h4, h5, -⟩ :=
        handler_except_spec
          (joinPath AUDIO_CACHE_DIR (get_audio_cache_filename url)) st
          (Exn.pyErr m2) false
      exact ⟨⟨exnMsg (Exn.pyErr m2), h1⟩, h2, h3, h4, h5⟩
    | ok r =>
      obtain ⟨fp, fs1, dflag⟩ := r
      rw [hdl]
      dsimp only
      obtain ⟨h1, h2, h3, h4, h5, -⟩ :=
        handler_except_spec
          (joinPath AUDIO_CACHE_DIR (get_audio_cache_filename url))
          { st with fs := if b = true
              then joinPath AUDIO_CACHE_DIR (get_audio_cache_filename url) :: fs1
              else fs1 }
          (Exn.pyErr m) true
      exact ⟨⟨exnMsg (Exn.pyErr m), h1⟩, h2, h3, h4, h5⟩

/-- Audio counterpart of the sweep characterisation. -/
theorem clean_audio_cache_step_iff (st : St) (now : Int) :
    ((truthy st.cached_audio_path = true ∧
        now - st.last_access_time > CACHE_EXPIRY_TIME) →
      clean_audio_cache_step st now =
        { fs := if (st.cached_audio_path.getD []) ∈ st.fs
                then removeFile st.fs (st.cached_audio_path.getD []) else st.fs,
          cached_video_path := st.cached_video_path,
          cached_audio_path := none,
          last_access_time := 0 } ∧
      (st.cached_audio_path.getD []) ∉ (clean_audio_cache_step st now).fs ∧
      (clean_audio_cache_step st now).cached_audio_path = none) ∧
    (¬ (truthy st.cached_audio_path = true ∧
        now - st.last_access_time > CACHE_EXPIRY_TIME) →
      clean_audio_cache_step st now = st) ∧
    (∀ url env p, env.now = now →
      cache_lookup st.cached_audio_path (get_audio_cache_filename url) = some p →
      clean_audio_cache_step ((download_audio url st env).st) now
        = (download_audio url st env).st) := by
  refine ⟨?_, ?_, ?_⟩
  · intro h
    have heq : clean_audio_cache_step st now =
        { fs := if (st.cached_audio_path.getD []) ∈ st.fs
                then removeFile st.fs (st.cached_audio_path.getD []) else st.fs,
          cached_video_path := st.cached_video_path,
          cached_audio_path := none,
          last_access_time := 0 } := by
      unfold clean_audio_cache_step
      rw [if_pos h]
    refine ⟨heq, ?_, by rw [heq]⟩
    rw [heq]
    dsimp only
    split
    · exact not_mem_removeFile_self _ _
    · next hmem => exact hmem
  · intro h
    unfold clean_audio_cache_step
    rw [if_neg h]
  · intro url env p hnow hp
    have hst : (download_audio url st env).st
        = { st with last_access_time := env.now } := by
      simp only [download_audio]
      rw [hp]
    rw [hst]
    have hc : ¬ (truthy ({ st with last_access_time := env.now } : St).cached_audio_path
          = true ∧
        now - ({ st with last_access_time := env.now } : St).last_access_time
          > CACHE_EXPIRY_TIME) := by
      rintro ⟨-, h2⟩
      have h3 : now - env.now > (900 : Int) := h2
      rw [hnow] at h3
      omega
    unfold clean_audio_cache_step
    rw [if_neg hc]

/-- Audio counterpart of the replace-evicts-previous property. -/
theorem replace_evicts_previous_audio (u1 u2 : List Nat) (st : St) (env : Env)
    (p1 : Str)
    (hres : st.cached_audio_path = some p1)
    (hbase : basename p1 = get_audio_cache_filename u1)
    (hne : get_audio_cache_filename u1 ≠ get_audio_cache_filename u2)
    (hp1 : p1 ∈ st.fs)
    (hff : env.ffmpeg = FfmpegOutcome.ok)
    (hdl : env.dl = DlOutcome.completes true) :
    p1 ∉ ((download_audio u2 st env).st).fs ∧
    ((download_audio u2 st env).st).cached_audio_path = some (audioDest u2) ∧
    audioDest u2 ∈ ((download_audio u2 st env).st).fs ∧
    cache_lookup ((download_audio u2 st env).st).cached_audio_path
      (get_audio_cache_filename u1) = none ∧
    cache_lookup ((download_audio u2 st env).st).cached_audio_path
      (get_audio_cache_filename u2) = some (audioDest u2) := by
  have hp1nil : p1 ≠ [] := by
    intro h
    rw [h] at hbase
    have hb : ([] : Str) = get_audio_cache_filename u1 := hbase
    exact get_audio_cache_filename_ne_nil u1 hb.symm
  have hmiss : cache_lookup st.cached_audio_path (get_audio_cache_filename u2)
      = none := by
    rw [hres]
    apply cache_lookup_none_of_basename_ne
    intro h
    have hb : basename p1 = get_audio_cache_filename u2 := h
    exact hne (hbase.symm.trans hb)
  have hdne : audioDest u2 ≠ p1 := by
    intro h
    apply hne
    rw [← hbase, ← h]
    exact basename_audioDest u2
  have hcond : truthy st.cached_audio_path = true ∧
      (st.cached_audio_path.getD []) ∈ (audioDest u2 :: ffmpegFs st.fs) := by
    rw [hres]
    exact ⟨truthy_some_of_ne_nil p1 hp1nil,
      List.mem_cons_of_mem _ (mem_ffmpegFs _ _ hp1)⟩
  have hfs : audioSuccessFs u2 st
      = removeFile (audioDest u2 :: ffmpegFs st.fs) p1 := by
    unfold audioSuccessFs
    rw [if_pos hcond, hres]
    exact rfl
  rw [download_audio_success u2 st env hmiss hff hdl]
  dsimp only
  refine ⟨?_, rfl, ?_, ?_, ?_⟩
  · rw [hfs]
    exact not_mem_removeFile_self _ _
  · rw [hfs, mem_removeFile]
    exact ⟨List.mem_cons_self _ _, hdne⟩
  · apply cache_lookup_none_of_basename_ne
    intro h
    have hb : basename (audioDest u2) = get_audio_cache_filename u1 := h
    rw [basename_audioDest u2] at hb
    exact hne hb.symm
  · exact cache_lookup_some _ _ (truthy_audioDest u2) (basename_audioDest u2)

/-- Audio counterpart of the hit-after-replace property. -/
theorem hit_after_replace_audio (u : List Nat) (st : St) (env env2 : Env)
    (hmiss : cache_lookup st.cached_audio_path (get_audio_cache_filename u)
      = none)
    (hff : env.ffmpeg = FfmpegOutcome.ok)
    (hdl : env.dl = DlOutcome.completes true) :
    ((download_audio u st env).st).cached_audio_path = some (audioDest u) ∧
    audioDest u ∈ ((download_audio u st env).st).fs ∧
    ((download_audio u st env).st).last_access_time = env.now ∧
    cache_lookup ((download_audio u st env).st).cached_audio_path
      (get_audio_cache_filename u) = some (audioDest u) ∧
    download_audio u ((download_audio u st env).st) env2 =
      { resp := Resp.fileResponse (audioDest u) ("audio/mpeg".toList)
          (get_audio_cache_filename u),
        st := { (download_audio u st env).st with last_access_time := env2.now },
        acquired := false } := by
  rw [download_audio_success u st env hmiss hff hdl]
  dsimp only
  refine ⟨rfl, ?_, rfl, ?_, ?_⟩
  · unfold audioSuccessFs
    split
    · next hcond =>
      rw [mem_removeFile]
      refine ⟨List.mem_cons_self _ _, ?_⟩
      intro hEq
      have hb := basename_ne_of_lookup_none st.cached_audio_path
        (get_audio_cache_filename u) hmiss hcond.1
      apply hb
      rw [← hEq]
      exact basename_audioDest u
    · exact List.mem_cons_self _ _
  · exact cache_lookup_some _ _ (truthy_audioDest u) (basename_audioDest u)
  · exact download_audio_hit u _ env2 (audioDest u)
      (cache_lookup_some _ _ (truthy_audioDest u) (basename_audioDest u))

/-- The audio cache path of the sample URL byte string `[97]`. -/
def aHit0 : Str := joinPath AUDIO_CACHE_DIR (get_audio_cache_filename [97])

/-- Sample state: the audio slot holds the resident for URL `[97]`. -/
def stHitA : St :=
  { fs := [aHit0], cached_video_path := none,
    cached_audio_path := some aHit0, last_access_time := 0 }

/-- C4: for each kind's sweeper, a sweep removes the resident file and
clears residency iff `now - last_access_time` strictly exceeds the fixed
15-minute threshold (`CACHE_EXPIRY_TIME = 15 * 60`); otherwise it is a
no-op; and a lookup hit resets the idle clock so a sweep at the same
wall-clock time does not evict. -/
theorem sweep_evicts_iff_idle :
    (∀ (st : St) (now : Int),
      CACHE_EXPIRY_TIME = 15 * 60 ∧
      ((truthy st.cached_video_path = true ∧
          now - st.last_access_time > CACHE_EXPIRY_TIME) →
        clean_cache_step st now =
          { fs := if (st.cached_video_path.getD []) ∈ st.fs
                  then removeFile st.fs (st.cached_video_path.getD []) else st.fs,
            cached_video_path := none,
            cached_audio_path := st.cached_audio_path,
            last_access_time := 0 } ∧
        (st.cached_video_path.getD []) ∉ (clean_cache_step st now).fs ∧
        (clean_cache_step st now).cached_video_path = none) ∧
      (¬ (truthy st.cached_video_path = true ∧
          now - st.last_access_time > CACHE_EXPIRY_TIME) →
        clean_cache_step st now = st) ∧
      (∀ url env p, env.now = now →
        cache_lookup st.cached_video_path (get_cache_filename url) = some p →
        clean_cache_step ((download_video url st env).st) now
          = (download_video url st env).st)) ∧
    (∀ (st : St) (now : Int),
      ((truthy st.cached_audio_path = true ∧
          now - st.last_access_time > CACHE_EXPIRY_TIME) →
        clean_audio_cache_step st now =
          { fs := if (st.cached_audio_path.getD []) ∈ st.fs
                  then removeFile st.fs (st.cached_audio_path.getD []) else st.fs,
            cached_video_path := st.cached_video_path,
            cached_audio_path := none,
            last_access_time := 0 } ∧
        (st.cached_audio_path.getD []) ∉ (clean_audio_cache_step st now).fs ∧
        (clean_audio_cache_step st now).cached_audio_path = none) ∧
      (¬ (truthy st.cached_audio_path = true ∧
          now - st.last_access_time > CACHE_EXPIRY_TIME) →
        clean_audio_cache_step st now = st) ∧
      (∀ url env p, env.now = now →
        cache_lookup st.cached_audio_path (get_audio_cache_filename url) = some p →
        clean_audio_cache_step ((download_audio url st env).st) now
          = (download_audio url st env).st)) :=
  ⟨clean_cache_step_iff, clean_audio_cache_step_iff⟩

/-- Witness for C4: concrete evictions past the threshold, no-ops short of
it, and hits at time 50 followed by sweeps at time 50 that do not evict,
for both kinds. -/
theorem sweep_evicts_iff_idle_witness :
    (clean_cache_step stBoth 1001).cached_video_path = none ∧
    clean_cache_step stHit 100 = stHit ∧
    clean_cache_step ((download_video [97] stHit envC4).st) 50
      = (download_video [97] stHit envC4).st ∧
    (clean_audio_cache_step stBoth 1001).cached_audio_path = none ∧
    clean_audio_cache_step stHitA 100 = stHitA ∧
    clean_audio_cache_step ((download_audio [97] stHitA envC4).st) 50
      = (download_audio [97] stHitA envC4).st :=
  ⟨((sweep_evicts_iff_idle.1 stBoth 1001).2.1 (by decide)).2.2,
   (sweep_evicts_iff_idle.1 stHit 100).2.2.1 (by decide),
   (sweep_evicts_iff_idle.1 stHit 50).2.2.2 [97] envC4 vHit0 rfl (by decide),
   ((sweep_evicts_iff_idle.2 stBoth 1001).1 (by decide)).2.2,
   (sweep_evicts_iff_idle.2 stHitA 100).2.1 (by decide),
   (sweep_evicts_iff_idle.2 stHitA 50).2.2 [97] envC4 aHit0 rfl (by decide)⟩

/-- C5: for both handlers, a failing acquisition (ffmpeg setup error or a
downloader exception) yields a 500 error response, leaves all three slot
globals unchanged (replace is never reached), and leaves no partial file at
the computed destination. -/
theorem acquisition_failure_no_mutation :
    (∀ (url : List Nat) (st : St) (env : Env),
      cache_lookup st.cached_video_path (get_cache_filename url) = none →
      ((∃ m, download_and_extract_ffmpeg st.fs env.ffmpeg = Except.error m) ∨
       (∃ b m, env.dl = DlOutcome.raisesErr b m)) →
      (∃ d, (download_video url st env).resp = Resp.httpError 500 d) ∧
      ((download_video url st env).st).cached_video_path = st.cached_video_path ∧
      ((download_video url st env).st).cached_audio_path = st.cached_audio_path ∧
      ((download_video url st env).st).last_access_time = st.last_access_time ∧
      videoDest url ∉ ((download_video url st env).st).fs) ∧
    (∀ (url : List Nat) (st : St) (env : Env),
      cache_lookup st.cached_audio_path (get_audio_cache_filename url) = none →
      ((∃ m, download_and_extract_ffmpeg st.fs env.ffmpeg = Except.error m) ∨
       (∃ b m, env.dl = DlOutcome.raisesErr b m)) →
      (∃ d, (download_audio url st env).resp = Resp.httpError 500 d) ∧
      ((download_audio url st env).st).cached_video_path = st.cached_video_path ∧
      ((download_audio url st env).st).cached_audio_path = st.cached_audio_path ∧
      ((download_audio url st env).st).last_access_time = st.last_access_time ∧
      audioDest url ∉ ((download_audio url st env).st).fs) :=
  ⟨download_video_failure_no_mutation, download_audio_failure_no_mutation⟩

/-- Witness for C5: concrete failing downloads leave the empty state's
slots untouched and no partial file at either destination. -/
theorem acquisition_failure_no_mutation_witness :
    ((∃ d, (download_video [97] stEmpty envFail).resp = Resp.httpError 500 d) ∧
     ((download_video [97] stEmpty envFail).st).cached_video_path
       = stEmpty.cached_video_path ∧
     ((download_video [97] stEmpty envFail).st).cached_audio_path
       = stEmpty.cached_audio_path ∧
     ((download_video [97] stEmpty envFail).st).last_access_time
       = stEmpty.last_access_time ∧
     videoDest [97] ∉ ((download_video [97] stEmpty envFail).st).fs) ∧
    ((∃ d, (download_audio [97] stEmpty envFail).resp = Resp.httpError 500 d) ∧
     ((download_audio [97] stEmpty envFail).st).cached_video_path
       = stEmpty.cached_video_path ∧
     ((download_audio [97] stEmpty envFail).st).cached_audio_path
       = stEmpty.cached_audio_path ∧
     ((download_audio [97] stEmpty envFail).st).last_access_time
       = stEmpty.last_access_time ∧
     audioDest [97] ∉ ((download_audio [97] stEmpty envFail).st).fs) :=
  ⟨acquisition_failure_no_mutation.1 [97] stEmpty envFail (by decide)
     (Or.inr ⟨true, "boom".toList, rfl⟩),
   acquisition_failure_no_mutation.2 [97] stEmpty envFail (by decide)
     (Or.inr ⟨true, "boom".toList, rfl⟩)⟩

/-- C6: for both kinds, a successful acquisition for a URL with a different
fingerprint replaces the resident: the old file no longer exists, a lookup
of the old fingerprint returns none, and the slot holds the new
fingerprint's path (which is on disk). -/
theorem replace_evicts_previous_both :
    (∀ (u1 u2 : List Nat) (st : St) (env : Env) (p1 : Str),
      st.cached_video_path = some p1 →
      basename p1 = get_cache_filename u1 →
      get_cache_filename u1 ≠ get_cache_filename u2 →
      p1 ∈ st.fs →
      env.ffmpeg = FfmpegOutcome.ok →
      env.dl = DlOutcome.completes true →
      p1 ∉ ((download_video u2 st env).st).fs ∧
      ((download_video u2 st env).st).cached_video_path = some (videoDest u2) ∧
      videoDest u2 ∈ ((download_video u2 st env).st).fs ∧
      cache_lookup ((download_video u2 st env).st).cached_video_path
        (get_cache_filename u1) = none ∧
      cache_lookup ((download_video u2 st env).st).cached_video_path
        (get_cache_filename u2) = some (videoDest u2)) ∧
    (∀ (u1 u2 : List Nat) (st : St) (env : Env) (p1 : Str),
      st.cached_audio_path = some p1 →
      basename p1 = get_audio_cache_filename u1 →
      get_audio_cache_filename u1 ≠ get_audio_cache_filename u2 →
      p1 ∈ st.fs →
      env.ffmpeg = FfmpegOutcome.ok →
      env.dl = DlOutcome.completes true →
      p1 ∉ ((download_audio u2 st env).st).fs ∧
      ((download_audio u2 st env).st).cached_audio_path = some (audioDest u2) ∧
      audioDest u2 ∈ ((download_audio u2 st env).st).fs ∧
      cache_lookup ((download_audio u2 st env).st).cached_audio_path
        (get_audio_cache_filename u1) = none ∧
      cache_lookup ((download_audio u2 st env).st).cached_audio_path
        (get_audio_cache_filename u2) = some (audioDest u2)) :=
  ⟨replace_evicts_previous, replace_evicts_previous_audio⟩

/-- Witness for C6 with URLs `[97]` and `[98]` (whose MD5 digests differ),
for both kinds. -/
theorem replace_evicts_previous_both_witness :
    (vHit0 ∉ ((download_video [98] stHit envSucc).st).fs ∧
     ((download_video [98] stHit envSucc).st).cached_video_path
       = some (videoDest [98]) ∧
     videoDest [98] ∈ ((download_video [98] stHit envSucc).st).fs ∧
     cache_lookup ((download_video [98] stHit envSucc).st).cached_video_path
       (get_cache_filename [97]) = none ∧
     cache_lookup ((download_video [98] stHit envSucc).st).cached_video_path
       (get_cache_filename [98]) = some (videoDest [98])) ∧
    (aHit0 ∉ ((download_audio [98] stHitA envSucc).st).fs ∧
     ((download_audio [98] stHitA envSucc).st).cached_audio_path
       = some (audioDest [98]) ∧
     audioDest [98] ∈ ((download_audio [98] stHitA envSucc).st).fs ∧
     cache_lookup ((download_audio [98] stHitA envSucc).st).cached_audio_path
       (get_audio_cache_filename [97]) = none ∧
     cache_lookup ((download_audio [98] stHitA envSucc).st).cached_audio_path
       (get_audio_cache_filename [98]) = some (audioDest [98])) :=
  ⟨replace_evicts_previous_both.1 [97] [98] stHit envSucc vHit0 rfl (by decide)
     (by decide) (by decide) rfl rfl,
   replace_evicts_previous_both.2 [97] [98] stHitA envSucc aHit0 rfl (by decide)
     (by decide) (by decide) rfl rfl⟩

/-- C7: for both kinds, after a successful replace the file is resident and
on disk, and a second request with the same fingerprint is a pure hit: it
returns the cached path, updates only `last_access_time` to the current
time, and invokes no new acquisition. -/
theorem hit_after_replace_both :
    (∀ (u : List Nat) (st : St) (env env2 : Env),
      cache_lookup st.cached_video_path (get_cache_filename u) = none →
      env.ffmpeg = FfmpegOutcome.ok →
      env.dl = DlOutcome.completes true →
      ((download_video u st env).st).cached_video_path = some (videoDest u) ∧
      videoDest u ∈ ((download_video u st env).st).fs ∧
      ((download_video u st env).st).last_access_time = env.now ∧
      cache_lookup ((download_video u st env).st).cached_video_path
        (get_cache_filename u) = some (videoDest u) ∧
      download_video u ((download_video u st env).st) env2 =
        { resp := Resp.fileResponse (videoDest u) ("video/mp4".toList)
            (get_cache_filename u),
          st := { (download_video u st env).st with last_access_time := env2.now },
          acquired := false }) ∧
    (∀ (u : List Nat) (st : St) (env env2 : Env),
      cache_lookup st.cached_audio_path (get_audio_cache_filename u) = none →
      env.ffmpeg = FfmpegOutcome.ok →
      env.dl = DlOutcome.completes true →
      ((download_audio u st env).st).cached_audio_path = some (audioDest u) ∧
      audioDest u ∈ ((download_audio u st env).st).fs ∧
      ((download_audio u st env).st).last_access_time = env.now ∧
      cache_lookup ((download_audio u st env).st).cached_audio_path
        (get_audio_cache_filename u) = some (audioDest u) ∧
      download_audio u ((download_audio u st env).st) env2 =
        { resp := Resp.fileResponse (audioDest u) ("audio/mpeg".toList)
            (get_audio_cache_filename u),
          st := { (download_audio u st env).st with last_access_time := env2.now },
          acquired := false }) :=
  ⟨hit_after_replace, hit_after_replace_audio⟩

/-- Witness for C7 on the empty state with URL `[97]`, for both kinds. -/
theorem hit_after_replace_both_witness :
    (((download_video [97] stEmpty envSucc).st).cached_video_path
       = some (videoDest [97]) ∧
     videoDest [97] ∈ ((download_video [97] stEmpty envSucc).st).fs ∧
     ((download_video [97] stEmpty envSucc).st).last_access_time = envSucc.now ∧
     cache_lookup ((download_video [97] stEmpty envSucc).st).cached_video_path
       (get_cache_filename [97]) = some (videoDest [97]) ∧
     download_video [97] ((download_video [97] stEmpty envSucc).st) envC4 =
       { resp := Resp.fileResponse (videoDest [97]) ("video/mp4".toList)
           (get_cache_filename [97]),
         st := { (download_video [97] stEmpty envSucc).st with
                 last_access_time := envC4.now },
         acquired := false }) ∧
    (((download_audio [97] stEmpty envSucc).st).cached_audio_path
       = some (audioDest [97]) ∧
     audioDest [97] ∈ ((download_audio [97] stEmpty envSucc).st).fs ∧
     ((download_audio [97] stEmpty envSucc).st).last_access_time = envSucc.now ∧
     cache_lookup ((download_audio [97] stEmpty envSucc).st).cached_audio_path
       (get_audio_cache_filename [97]) = some (audioDest [97]) ∧
     download_audio [97] ((download_audio [97] stEmpty envSucc).st) envC4 =
       { resp := Resp.fileResponse (audioDest [97]) ("audio/mpeg".toList)
           (get_audio_cache_filename [97]),
         st := { (download_audio [97] stEmpty envSucc).st with
                 last_access_time := envC4.now },
         acquired := false }) :=
  ⟨hit_after_replace_both.1 [97] stEmpty envSucc envC4 (by decide) rfl rfl,
   hit_after_replace_both.2 [97] stEmpty envSucc envC4 (by decide) rfl rfl⟩
